import Mathlib

/-!
Verification development for the `favicon` tool (`favicon.py`).

The program is a sequential pipeline: resolve a page's favicon URI (HTTP GET,
HTML `<link rel="icon">` extraction, URI normalization), then fetch the icon
(HTTP GET, image decode, optional resize, save), plus a batch DokuWiki mode.

Shallow embedding conventions:
* Pure string manipulation (`urllib.parse.urlparse`, `os.path.split`,
  `os.path.splitext`, `re.sub`, `str.startswith`, `str.strip`, the regular
  expression of the batch-mode config lines) is translated faithfully to
  functions on `String` / `List Char`, following the CPython library code the
  program calls (ASCII inputs; the program passes `re.ASCII` where it matters).
* Effects (HTTP responses, the BeautifulSoup find result, image decoding,
  per-entry exceptions in batch mode) are inputs to the embedded functions:
  a response is a status code plus final URL plus the extracted link data, and
  batch-mode per-entry effects are an oracle.  The functions return the
  decisions the Python code makes from those inputs (returned URI, raised
  error, emitted actions).
-/

namespace Favicon

/-! ## Character classes (ASCII, following CPython) -/

/-- ASCII letter. -/
def isAsciiAlpha (c : Char) : Bool :=
  decide (('a' ≤ c ∧ c ≤ 'z') ∨ ('A' ≤ c ∧ c ≤ 'Z'))

/-- ASCII digit. -/
def isAsciiDigit (c : Char) : Bool :=
  decide ('0' ≤ c ∧ c ≤ '9')

/-- Characters allowed in a URI scheme by `urllib.parse` (`scheme_chars`). -/
def isSchemeChar (c : Char) : Bool :=
  isAsciiAlpha c || isAsciiDigit c || decide (c = '+' ∨ c = '-' ∨ c = '.')

/-- ASCII lowercasing of one character (`str.lower` on scheme characters). -/
def asciiLower (c : Char) : Char :=
  if 'A' ≤ c ∧ c ≤ 'Z' then Char.ofNat (c.toNat + 32) else c

/-- `\w` with `re.ASCII`: `[a-zA-Z0-9_]`. -/
def isAsciiWord (c : Char) : Bool :=
  isAsciiAlpha c || isAsciiDigit c || decide (c = '_')

/-- `\s` with `re.ASCII`: `[ \t\n\r\f\v]`; also the ASCII part of the
whitespace stripped by `str.strip()`. -/
def isPyWhitespace (c : Char) : Bool :=
  decide (c = ' ' ∨ c = '\t' ∨ c = '\n' ∨ c = '\r' ∨ c = '\x0b' ∨ c = '\x0c')

/-! ## List helpers used by the library models -/

/-- Split a character list at the first occurrence of `sep` (the separator is
dropped); `none` when `sep` does not occur.  Models `str.split(sep, 1)` /
`str.find`. -/
def splitOnFirst (sep : Char) : List Char → Option (List Char × List Char)
  | [] => none
  | c :: cs =>
    if c = sep then some ([], cs)
    else
      match splitOnFirst sep cs with
      | some (a, b) => some (c :: a, b)
      | none => none

/-- Split a character list at the last occurrence of `sep` (the separator is
dropped); `none` when `sep` does not occur.  Models `str.rfind`. -/
def splitOnLast (sep : Char) : List Char → Option (List Char × List Char)
  | [] => none
  | c :: cs =>
    match splitOnLast sep cs with
    | some (a, b) => some (c :: a, b)
    | none => if c = sep then some ([], cs) else none

/-- Index of the last occurrence of `c`, or `none` (`str.rfind`). -/
def rfindIdxAux (c : Char) : List Char → Nat → Option Nat
  | [], _ => none
  | x :: xs, i =>
    match rfindIdxAux c xs (i + 1) with
    | some j => some j
    | none => if x = c then some i else none

/-- Index of the last occurrence of `c` in `l`, or `none`. -/
def rfindIdx (c : Char) (l : List Char) : Option Nat :=
  rfindIdxAux c l 0

/-- Cut a netloc at the first of `/`, `?`, `#` (`urllib.parse._splitnetloc`). -/
def takeUntilDelims : List Char → List Char × List Char
  | [] => ([], [])
  | c :: cs =>
    if c = '/' ∨ c = '?' ∨ c = '#' then ([], c :: cs)
    else
      let (a, b) := takeUntilDelims cs
      (c :: a, b)

/-- `str.strip()` restricted to ASCII whitespace. -/
def pyStrip (l : List Char) : List Char :=
  ((l.dropWhile isPyWhitespace).reverse.dropWhile isPyWhitespace).reverse

/-- Python `str.startswith`. -/
def startswithList : List Char → List Char → Bool
  | _, [] => true
  | [], _ :: _ => false
  | c :: cs, d :: ds => c == d && startswithList cs ds

/-- Python `str.startswith` on `String`. -/
def startswith (s p : String) : Bool :=
  startswithList s.data p.data

/-! ## `urllib.parse.urlparse` (the fields the program reads) -/

/-- Result of `urllib.parse.urlparse`, restricted to the components the
program reads (`scheme`, `netloc`, `path`; `params` are never split off a
path by the program's inputs, so `urlparse` and `urlsplit` agree here). -/
structure ParseResult where
  scheme : String
  netloc : String
  path : String
  query : String
  fragment : String
deriving DecidableEq, Repr

/-- Model of CPython `urllib.parse.urlsplit`: optional scheme (nonempty run of
scheme characters starting with an ASCII letter, before a `:`), optional
`//…` netloc cut at the first `/`, `?` or `#`, then fragment split at the
first `#` and query at the first `?`. -/
def urlparse (url : String) : ParseResult :=
  let l := url.data
  let schemeRest : List Char × List Char :=
    match splitOnFirst ':' l with
    | some (pre, post) =>
      match pre with
      | [] => ([], l)
      | c :: cs =>
        if isAsciiAlpha c ∧ (c :: cs).all isSchemeChar then ((c :: cs).map asciiLower, post)
        else ([], l)
    | none => ([], l)
  let netlocRest : List Char × List Char :=
    match schemeRest.2 with
    | '/' :: '/' :: tail => takeUntilDelims tail
    | other => ([], other)
  let restFragment : List Char × List Char :=
    match splitOnFirst '#' netlocRest.2 with
    | some (a, b) => (a, b)
    | none => (netlocRest.2, [])
  let pathQuery : List Char × List Char :=
    match splitOnFirst '?' restFragment.1 with
    | some (a, b) => (a, b)
    | none => (restFragment.1, [])
  ⟨⟨schemeRest.1⟩, ⟨netlocRest.1⟩, ⟨pathQuery.1⟩, ⟨pathQuery.2⟩, ⟨restFragment.2⟩⟩

/-! ## `os.path` (POSIX flavour, as used by the program) -/

/-- Drop trailing `/` characters (`str.rstrip('/')`). -/
def dropTrailingSlashes (l : List Char) : List Char :=
  (l.reverse.dropWhile (· == '/')).reverse

/-- Model of `posixpath.split`: cut after the last `/`; the head keeps a
leading run of slashes but loses other trailing slashes. -/
def ospathSplit (p : List Char) : List Char × List Char :=
  match splitOnLast '/' p with
  | none => ([], p)
  | some (before, tail) =>
    let head := before ++ ['/']
    (if head.all (· == '/') then head else dropTrailingSlashes head, tail)

/-- Model of `posixpath.splitext`: the extension starts at the last `.` that
lies after the last `/` and is preceded (within the basename) by at least one
character that is not a `.`. -/
def splitextList (p : List Char) : List Char × List Char :=
  match rfindIdx '.' p with
  | none => (p, [])
  | some dotIndex =>
    let sepIndex : Int :=
      match rfindIdx '/' p with
      | none => -1
      | some i => (i : Int)
    if (dotIndex : Int) > sepIndex then
      let nameStart : Nat := (sepIndex + 1).toNat
      if ((p.drop nameStart).take (dotIndex - nameStart)).any (fun c => c != '.') then
        (p.take dotIndex, p.drop dotIndex)
      else (p, [])
    else (p, [])

/-! ## `get_favicon_uri_from_link` (favicon.py lines 17-35)

BeautifulSoup's `soup.find('link', rel='icon')` is abstracted as an input:
`none` when the HTML has no such link, `some none` when the first matching
link has no `href` attribute, `some (some h)` when it has `href` value `h`. -/

/-- The `soup.find('link', rel='icon')` result together with its optional
`href` attribute. -/
abbrev LinkFindResult := Option (Option String)

/-- `get_favicon_uri_from_link(content, uri)` with the parsed link abstracted:
normalizes the `href` of the first `<link rel="icon">` against `uri`
(protocol-relative, absolute-path, or relative-path concatenation), or
returns `none` when there is no link with an `href`. -/
def get_favicon_uri_from_link (link : LinkFindResult) (uri : String) : Option String :=
  match link with
  | some (some href) =>
    let parsed_uri := urlparse uri
    let favicon_uri :=
      if startswith href "//" then
        parsed_uri.scheme ++ ":" ++ href
      else if startswith href "/" then
        parsed_uri.scheme ++ "://" ++ parsed_uri.netloc ++ href
      else if !(startswith href "http") then
        let path : String := ⟨(ospathSplit parsed_uri.path.data).1⟩
        parsed_uri.scheme ++ "://" ++ parsed_uri.netloc ++ "/" ++ path ++ "/" ++ href
      else href
    some favicon_uri
  | _ => none

/-! ## `get_favicon_uri` (favicon.py lines 38-55)

The two HTTP requests are abstracted as inputs: the GET on the page URI is a
status code, a final (post-redirect) URL and the link extracted from the
body; the HEAD on `{scheme}://{netloc}/favicon.ico` is a status code. -/

/-- `requests.codes.ok`. -/
def requests_codes_ok : Nat := 200

/-- The GET response on the page URI: `status_code`, final `url` after
redirects, and the `soup.find('link', rel='icon')` result on the body. -/
structure HttpGetResponse where
  status_code : Nat
  url : String
  linkIcon : LinkFindResult

/-- `get_favicon_uri(uri)`: on a 200 GET, try the `<link rel="icon">` of the
body resolved against the final URL; otherwise (or when that yields nothing)
fall back to a HEAD on `{scheme}://{netloc}/favicon.ico`, returned exactly
when the HEAD status equals `requests.codes.ok`.  The emptiness test on the
link result models Python truthiness of `if favicon_uri:`. -/
def get_favicon_uri (uri : String) (getResp : HttpGetResponse) (headStatus : Nat) :
    Option String :=
  let parsed_uri := urlparse uri
  let fromLink : Option String :=
    if getResp.status_code = requests_codes_ok then
      get_favicon_uri_from_link getResp.linkIcon getResp.url
    else none
  let favicon_ico := parsed_uri.scheme ++ "://" ++ parsed_uri.netloc ++ "/favicon.ico"
  let fallback : Option String :=
    if headStatus = requests_codes_ok then some favicon_ico else none
  match fromLink with
  | some favicon_uri => if favicon_uri = "" then fallback else some favicon_uri
  | none => fallback

/-! ## `get_filename` (favicon.py lines 58-61) -/

/-- `re.sub(r'\W', '_', s, flags=re.ASCII)`: each character that is not an
ASCII word character is replaced by `_` (written as the scan the regex engine
performs; `\W` matches single characters). -/
def re_sub_W : List Char → List Char
  | [] => []
  | c :: cs => (if isAsciiWord c then c else '_') :: re_sub_W cs

/-- `get_filename(uri, favicon_uri, png)`: the page URI's netloc with
non-word characters replaced by `_`, plus `.png` when `png` is set and
otherwise the extension of the favicon URI's path. -/
def get_filename (uri : String) (favicon_uri : String) (png : Bool) : String :=
  let ext : String :=
    if png then ".png" else ⟨(splitextList (urlparse favicon_uri).path.data).2⟩
  let filename : String := ⟨re_sub_W (urlparse uri).netloc.data⟩ ++ ext
  filename

/-! ## `get_favicon` (favicon.py lines 64-81)

The GET on the favicon URI is a status code plus a decode result: `PIL.Image`
internals are abstracted to the data the code reads (`format`, and for ICO
containers the size directory `favicon.ico.sizes()`); `Image.open` failing to
decode the body is the `none` decode result.  The function returns which
outcome the code reaches: an HTTP error raised by `raise_for_status`, a
decode error, or a save together with the resize decision taken. -/

/-- The decoded image, restricted to what the code inspects: the format name
and, for ICO containers, the list of sizes in the icon directory. -/
structure PILImage where
  format : String
  width : Int
  height : Int
  icoSizes : List (Int × Int)
deriving DecidableEq, Repr

/-- The resize decision of `get_favicon`: no resize (`resize` falsy), direct
selection of an embedded ICO bitmap (`favicon.ico.getimage(size)`), or
bicubic resampling (`favicon.resize(size, resample=Image.BICUBIC)`). -/
inductive ResizeAction where
  | noResize
  | useEmbedded (size : Int × Int)
  | resampleBicubic (size : Int × Int)
deriving DecidableEq, Repr

/-- The resize step of `get_favicon` (lines 72-78): when `resize` is truthy,
select the exact embedded variant if the image is an ICO whose directory
contains `(resize, resize)`, else resample bicubically. -/
def resizeStep (favicon : PILImage) (resize : Int) : ResizeAction :=
  if resize ≠ 0 then
    let size := (resize, resize)
    if favicon.format = "ICO" ∧ size ∈ favicon.icoSizes then ResizeAction.useEmbedded size
    else ResizeAction.resampleBicubic size
  else ResizeAction.noResize

/-- `response.raise_for_status()` raises exactly for 4xx and 5xx statuses. -/
def raise_for_status_raises (status : Nat) : Bool :=
  decide (400 ≤ status ∧ status < 600)

/-- Outcome of `get_favicon`: the `HTTPError` from `raise_for_status`, a
decode failure from `Image.open`, or a successful save with the resize
decision that was applied. -/
inductive GetFaviconResult where
  | httpError (status : Nat)
  | decodeError
  | saved (act : ResizeAction)
deriving DecidableEq, Repr

/-- `get_favicon(uri, filename, resize)` with the GET abstracted: statuses
other than `requests.codes.ok` go through `raise_for_status` (an error only
for 4xx/5xx); then the body is decoded, optionally resized, and saved. -/
def get_favicon (status : Nat) (decoded : Option PILImage) (resize : Int) :
    GetFaviconResult :=
  if status ≠ requests_codes_ok ∧ raise_for_status_raises status then
    GetFaviconResult.httpError status
  else
    match decoded with
    | none => GetFaviconResult.decodeError
    | some favicon => GetFaviconResult.saved (resizeStep favicon resize)

/-! ## URI normalization in `__main__` (favicon.py lines 136-137) -/

/-- The command-line URI normalization: prepend `http://` when the argument
does not start with the string `http`. -/
def normalize_uri (uri : String) : String :=
  if !(startswith uri "http") then "http://" ++ uri else uri

/-! ## `get_dokuwiki_interwiki_icons` (favicon.py lines 84-109)

The filesystem and the network are abstracted: the set of files present is a
list of names threaded through the run, and each config line comes with an
oracle giving the outcome of `get_favicon_uri` (a value or a raised
exception) and whether `get_favicon` raises.  The run returns the trace of
actions the code performs (log calls, resolver calls, fetch calls) and the
files written. -/

/-- `([-0-9.a-z_]+)` of the config-line pattern. -/
def isInterwikiNameChar (c : Char) : Bool :=
  decide (c = '-' ∨ c = '.' ∨ c = '_') || isAsciiDigit c ||
    decide ('a' ≤ c ∧ c ≤ 'z')

/-- `re.fullmatch(r'([-0-9.a-z_]+)\s+(.*)', line, flags=re.ASCII)`: a
nonempty maximal run of name characters, at least one ASCII whitespace
character, then the rest, which `.*` anchored at the end accepts exactly when
it contains no newline.  Returns the two groups. -/
def matchInterwikiLine (l : List Char) : Option (List Char × List Char) :=
  let name := l.takeWhile isInterwikiNameChar
  let afterName := l.dropWhile isInterwikiNameChar
  let ws := afterName.takeWhile isPyWhitespace
  let rest := afterName.dropWhile isPyWhitespace
  if name ≠ [] ∧ ws ≠ [] ∧ !(rest.contains '\n') then some (name, rest) else none

/-- `'{uri.scheme}://{uri.netloc}/'.format(uri=urlparse(s))`. -/
def interwiki_base_uri (s : String) : String :=
  let u := urlparse s
  u.scheme ++ "://" ++ u.netloc ++ "/"

/-- Oracle outcome of the `get_favicon_uri` call for one entry: a raised
exception (e.g. a network error) or the returned optional URI. -/
inductive ResolveOutcome where
  | raises
  | returns (r : Option String)
deriving DecidableEq, Repr

/-- Per-entry oracle: the `get_favicon_uri` outcome and whether the
`get_favicon` call raises (HTTP error, decode error, or write error). -/
structure LineOracle where
  resolve : ResolveOutcome
  fetchRaises : Bool
deriving DecidableEq, Repr

/-- One observable action of the batch loop. -/
inductive BatchAction where
  | logInfoExists
  | resolveCalled (uri : String)
  | logErrorNoFavicon (name uri : String)
  | fetchCalled (favicon_uri filename : String) (resize : Int)
  | logErrorException
  | logInfoSaved (name filename : String)
deriving DecidableEq, Repr

/-- `True` for the two `logging.error` actions of the loop body. -/
def BatchAction.isErrorLog : BatchAction → Bool
  | BatchAction.logErrorNoFavicon _ _ => true
  | BatchAction.logErrorException => true
  | _ => false

/-- `os.path.join(images_dir, name + '.png')`. -/
def dokuwikiFilename (images_dir name : String) : String :=
  images_dir ++ "/" ++ name ++ ".png"

/-- The loop body of `get_dokuwiki_interwiki_icons` for one config line:
skip silently on a non-matching line, log and skip when the target file
exists (unless forced), otherwise resolve and fetch, logging errors without
propagating them.  Returns the emitted actions and the files written. -/
def processLine (existing : List String) (force : Bool) (images_dir : String)
    (line : String) (o : LineOracle) : List BatchAction × List String :=
  match matchInterwikiLine (pyStrip line.data) with
  | none => ([], [])
  | some (nameL, uriL) =>
    let name : String := ⟨nameL⟩
    let filename := dokuwikiFilename images_dir name
    if filename ∈ existing ∧ ¬ force then ([BatchAction.logInfoExists], [])
    else
      let uri := interwiki_base_uri ⟨uriL⟩
      match o.resolve with
      | ResolveOutcome.raises =>
        ([BatchAction.resolveCalled uri, BatchAction.logErrorException], [])
      | ResolveOutcome.returns r =>
        match r with
        | none => ([BatchAction.resolveCalled uri,
                    BatchAction.logErrorNoFavicon name uri], [])
        | some fav =>
          if fav = "" then
            ([BatchAction.resolveCalled uri,
              BatchAction.logErrorNoFavicon name uri], [])
          else if o.fetchRaises then
            ([BatchAction.resolveCalled uri, BatchAction.fetchCalled fav filename 16,
              BatchAction.logErrorException], [])
          else
            ([BatchAction.resolveCalled uri, BatchAction.fetchCalled fav filename 16,
              BatchAction.logInfoSaved name filename], [filename])

/-- The whole batch loop: process the config lines in order, threading the
set of files on disk, and concatenate the action traces. -/
def runBatch (force : Bool) (images_dir : String) :
    List String → List (String × LineOracle) → List BatchAction × List String
  | existing, [] => ([], existing)
  | existing, (line, o) :: rest =>
    let step := processLine existing force images_dir line o
    let cont := runBatch force images_dir (existing ++ step.2) rest
    (step.1 ++ cont.1, cont.2)

example : urlparse "http://x.com/a/b" =
    ⟨"http", "x.com", "/a/b", "", ""⟩ := by decide

example : get_favicon_uri_from_link (some (some "i.png")) "http://x.com/a/b" =
    some "http://x.com//a/i.png" := by decide

example : get_favicon_uri_from_link (some (some "/i.png")) "http://x.com/a/b" =
    some "http://x.com/i.png" := by decide

example : get_favicon_uri_from_link (some (some "//cdn.com/i.png")) "http://x.com/a/b" =
    some "http://cdn.com/i.png" := by decide

/-! ## Helper lemmas -/

/-- A nonempty string prepended to a string never yields that same string. -/
theorem append_ne (p s : String) (hp : p.data ≠ []) : p ++ s ≠ s := by
  intro h
  have hd : p.data ++ s.data = s.data := congrArg String.data h
  have hl := congrArg List.length hd
  rw [List.length_append] at hl
  have hz : p.data.length = 0 := by omega
  exact hp (List.length_eq_zero.mp hz)

/-- A list starting with the pattern head continues the match on the tail. -/
theorem startswithList_head (l : List Char) (c : Char) (m : List Char)
    (h : startswithList l (c :: m) = true) :
    ∃ t, l = c :: t ∧ startswithList t m = true := by
  cases l with
  | nil => simp [startswithList] at h
  | cons a as =>
    simp only [startswithList, Bool.and_eq_true, beq_iff_eq] at h
    exact ⟨as, by rw [h.1], h.2⟩

/-- A list whose head differs from the pattern head fails the match. -/
theorem startswithList_cons_ne (as : List Char) (a c : Char) (m : List Char)
    (h : a ≠ c) : startswithList (a :: as) (c :: m) = false := by
  simp [startswithList, h]

/-! ## Claim theorems -/

/-- C1 (counterexample): for the final URI `http://x.com/a/b` and the href
`i.png`, the resolver does not return `http://x.com/a/i.png`. -/
theorem relative_href_counterexample :
    get_favicon_uri_from_link (some (some "i.png")) "http://x.com/a/b" ≠
      some "http://x.com/a/i.png" := by decide

/-- C1 (amended): for the final URI `http://x.com/a/b` and the href `i.png`,
the resolver returns `http://x.com//a/i.png`: the relative href is resolved
against the directory `/a` of the final path, but the concatenation inserts a
`/` before that directory, which already starts with `/`, duplicating the
separator between host and path. -/
theorem relative_href_double_slash :
    get_favicon_uri_from_link (some (some "i.png")) "http://x.com/a/b" =
      some "http://x.com//a/i.png" := by decide

/-- C3 (counterexample): `ftp://example.com` already has a scheme, yet the
program changes it (to `http://ftp://example.com`), because the check is a
literal `startswith('http')`, not a scheme test. -/
theorem scheme_normalization_counterexample :
    (urlparse "ftp://example.com").scheme ≠ "" ∧
    normalize_uri "ftp://example.com" = "http://ftp://example.com" ∧
    normalize_uri "ftp://example.com" ≠ "ftp://example.com" := by decide

/-- C3 (amended): the program leaves the command-line URI unchanged exactly
when it starts with the literal string `http`, and prepends `http://`
exactly when it does not. -/
theorem normalize_uri_startswith_http (uri : String) :
    (normalize_uri uri = uri ↔ startswith uri "http" = true) ∧
    (startswith uri "http" = false → normalize_uri uri = "http://" ++ uri) := by
  have hne : "http://" ++ uri ≠ uri := append_ne "http://" uri (by decide)
  constructor
  · constructor
    · intro h
      by_contra hb
      rw [Bool.not_eq_true] at hb
      rw [normalize_uri, hb] at h
      simp only [Bool.not_false, if_true] at h
      exact hne h
    · intro h
      rw [normalize_uri, h]
      simp
  · intro h
    rw [normalize_uri, h]
    simp

/-- C3 (witness): a bare host gets `http://` prepended. -/
theorem normalize_uri_witness :
    startswith "x.com" "http" = false ∧ normalize_uri "x.com" = "http://x.com" :=
  ⟨by decide, (normalize_uri_startswith_http "x.com").2 (by decide)⟩

/-- C4 (counterexample): 304 is not a 2xx status, yet `get_favicon` does not
raise on it: `raise_for_status` only raises for 4xx/5xx, so the body is
decoded and saved. -/
theorem get_favicon_304_not_error :
    ¬ (200 ≤ 304 ∧ 304 < 300) ∧
    get_favicon 304 (some ⟨"PNG", 32, 32, []⟩) 0 =
      GetFaviconResult.saved ResizeAction.noResize := by decide

/-- C4 (amended): `get_favicon` raises an error carrying the HTTP status
exactly when the GET status is 4xx or 5xx; other non-200 statuses (such as
204 or 304) are not treated as errors and the body is decoded and saved. -/
theorem get_favicon_error_iff (status : Nat) (decoded : Option PILImage) (resize : Int) :
    get_favicon status decoded resize = GetFaviconResult.httpError status ↔
      400 ≤ status ∧ status < 600 := by
  constructor
  · intro h
    by_cases hc : status ≠ requests_codes_ok ∧ raise_for_status_raises status = true
    · simpa [raise_for_status_raises] using hc.2
    · rw [get_favicon.eq_def, if_neg hc] at h
      cases decoded with
      | none => exact absurd h (by simp)
      | some favicon => exact absurd h (by simp)
  · intro h
    have hne : status ≠ requests_codes_ok := by
      unfold requests_codes_ok
      omega
    rw [get_favicon.eq_def, if_pos ⟨hne, by simpa [raise_for_status_raises] using h⟩]

/-- C5: with a positive resize, `get_favicon` selects the exact embedded
bitmap when the image is an ICO container whose size directory holds
`resize × resize`, and otherwise resamples bicubically; with resize 0 the
image is saved unmodified. -/
theorem get_favicon_resize_spec (favicon : PILImage) (resize : Int) (h : 0 < resize) :
    get_favicon 200 (some favicon) resize =
      GetFaviconResult.saved
        (if favicon.format = "ICO" ∧ (resize, resize) ∈ favicon.icoSizes then
          ResizeAction.useEmbedded (resize, resize)
        else ResizeAction.resampleBicubic (resize, resize)) ∧
    get_favicon 200 (some favicon) 0 = GetFaviconResult.saved ResizeAction.noResize := by
  have h200 : ¬ ((200 : Nat) ≠ requests_codes_ok ∧ raise_for_status_raises 200 = true) := by
    decide
  constructor
  · rw [get_favicon, if_neg h200]
    have hr : resize ≠ 0 := by omega
    rw [resizeStep, if_pos hr]
  · rw [get_favicon, if_neg h200]
    rfl

/-- C5 (witness): a 16×16 request on a multi-size ICO holding 16×16 and
32×32 selects the embedded 16×16 bitmap. -/
theorem get_favicon_resize_witness :
    (0 : Int) < 16 ∧
    (get_favicon 200 (some ⟨"ICO", 32, 32, [(16, 16), (32, 32)]⟩) 16 =
      GetFaviconResult.saved
        (if (PILImage.mk "ICO" 32 32 [(16, 16), (32, 32)]).format = "ICO" ∧
            ((16 : Int), (16 : Int)) ∈ (PILImage.mk "ICO" 32 32 [(16, 16), (32, 32)]).icoSizes then
          ResizeAction.useEmbedded (16, 16)
        else ResizeAction.resampleBicubic (16, 16)) ∧
     get_favicon 200 (some ⟨"ICO", 32, 32, [(16, 16), (32, 32)]⟩) 0 =
       GetFaviconResult.saved ResizeAction.noResize) :=
  ⟨by decide, get_favicon_resize_spec ⟨"ICO", 32, 32, [(16, 16), (32, 32)]⟩ 16 (by decide)⟩

/-- C9: an href that starts with the literal string `http` is returned
completely unchanged by the resolver, even when it is not an absolute URI
(such as the relative filename `httpicon.png`). -/
theorem href_http_unchanged (href uri : String) (h : startswith href "http" = true) :
    get_favicon_uri_from_link (some (some href)) uri = some href := by
  have h4 : startswithList href.data ('h' :: 't' :: 't' :: 'p' :: []) = true := h
  obtain ⟨t, ht, -⟩ := startswithList_head href.data 'h' ('t' :: 't' :: 'p' :: []) h4
  have hs1 : startswith href "/" = false := by
    show startswithList href.data ('/' :: []) = false
    rw [ht]
    exact startswithList_cons_ne t 'h' '/' [] (by decide)
  have hs2 : startswith href "//" = false := by
    show startswithList href.data ('/' :: '/' :: []) = false
    rw [ht]
    exact startswithList_cons_ne t 'h' '/' ['/'] (by decide)
  rw [get_favicon_uri_from_link]
  rw [hs2, hs1, h]
  simp

/-- C9 (witness): `httpicon.png` is a relative filename yet is returned
unchanged. -/
theorem href_http_unchanged_witness :
    startswith "httpicon.png" "http" = true ∧
    get_favicon_uri_from_link (some (some "httpicon.png")) "http://x.com/a/b" =
      some "httpicon.png" :=
  ⟨by decide, href_http_unchanged "httpicon.png" "http://x.com/a/b" (by decide)⟩

/-- C2 (counterexample): the fallback HEAD check accepts exactly status 200,
not every 2xx status: a 204 HEAD response is 2xx yet yields none. -/
theorem head_204_yields_none :
    (200 ≤ 204 ∧ 204 < 300) ∧
    get_favicon_uri "http://x.com" ⟨404, "http://x.com", none⟩ 204 = none := by decide

/-- C2 (amended): when the GET does not return 200, or the HTML yields no
`<link rel="icon">` with an href, `get_favicon_uri` falls back to the HEAD on
`{scheme}://{netloc}/favicon.ico` and returns that URI exactly when the HEAD
status equals 200 (any other status, 2xx included, yields none). -/
theorem favicon_ico_fallback (uri : String) (g : HttpGetResponse) (headStatus : Nat)
    (h : g.status_code ≠ requests_codes_ok ∨ g.linkIcon = none ∨ g.linkIcon = some none) :
    get_favicon_uri uri g headStatus =
      if headStatus = 200 then
        some ((urlparse uri).scheme ++ "://" ++ (urlparse uri).netloc ++ "/favicon.ico")
      else none := by
  have hfrom : (if g.status_code = requests_codes_ok then
      get_favicon_uri_from_link g.linkIcon g.url else none) = none := by
    rcases h with h | h | h
    · rw [if_neg h]
    · rw [h]
      split <;> rfl
    · rw [h]
      split <;> rfl
  simp only [get_favicon_uri]
  rw [hfrom]
  rfl

/-- C2 (witness): a failed page GET with a 200 HEAD yields the well-known
favicon URI. -/
theorem favicon_ico_fallback_witness :
    ((HttpGetResponse.mk 500 "http://x.com" none).status_code ≠ requests_codes_ok ∨
      (HttpGetResponse.mk 500 "http://x.com" none).linkIcon = none ∨
      (HttpGetResponse.mk 500 "http://x.com" none).linkIcon = some none) ∧
    get_favicon_uri "http://x.com" ⟨500, "http://x.com", none⟩ 200 =
      (if (200 : Nat) = 200 then
        some ((urlparse "http://x.com").scheme ++ "://" ++
          (urlparse "http://x.com").netloc ++ "/favicon.ico")
      else none) :=
  ⟨Or.inl (by decide),
   favicon_ico_fallback "http://x.com" ⟨500, "http://x.com", none⟩ 200 (Or.inl (by decide))⟩

/-- C6: `get_filename` is the page URI's netloc with every non-word character
replaced by `_`, followed by `.png` when PNG conversion is requested and
otherwise by the favicon URI path's extension; in particular the page URI
`http://My-Site.com/` with a `.ico` favicon and no PNG conversion yields
`My_Site_com.ico`.  (The embedded function is pure, so the result depends on
nothing but the two URIs and the flag.) -/
theorem get_filename_spec (uri favicon_uri : String) (png : Bool) :
    get_filename uri favicon_uri png =
      String.mk ((urlparse uri).netloc.data.map (fun c => if isAsciiWord c then c else '_')) ++
        (if png then ".png" else String.mk (splitextList (urlparse favicon_uri).path.data).2) ∧
    get_filename "http://My-Site.com/" "http://My-Site.com/favicon.ico" false =
      "My_Site_com.ico" ∧
    get_filename "http://My-Site.com/" "http://My-Site.com/favicon.ico" true =
      "My_Site_com.png" := by
  refine ⟨?_, by decide, by decide⟩
  have hmap : ∀ l : List Char,
      re_sub_W l = l.map (fun c => if isAsciiWord c then c else '_') := by
    intro l
    induction l with
    | nil => rfl
    | cons c cs ih => simp [re_sub_W, ih]
  simp only [get_filename]
  rw [hmap]

/-- C10: a `<link rel="icon">` without an `href` makes the link extractor
return nothing, and the resolver then behaves exactly as when no link is
present at all (same `/favicon.ico` fallback). -/
theorem link_without_href_falls_back (uri finalUrl : String) (status headStatus : Nat) :
    get_favicon_uri_from_link (some none) finalUrl = none ∧
    get_favicon_uri uri ⟨status, finalUrl, some none⟩ headStatus =
      get_favicon_uri uri ⟨status, finalUrl, none⟩ headStatus :=
  ⟨rfl, rfl⟩

/-- C7: in batch mode an entry whose output file already exists is skipped
when not forced — the only action is the skip log, no resolver call, no fetch
call, and no file is written — and is processed (its resolver call is
issued) when forced. -/
theorem dokuwiki_skip_existing (existing : List String) (images_dir line : String)
    (o : LineOracle) (nameL uriL : List Char)
    (hmatch : matchInterwikiLine (pyStrip line.data) = some (nameL, uriL))
    (hex : dokuwikiFilename images_dir ⟨nameL⟩ ∈ existing) :
    processLine existing false images_dir line o = ([BatchAction.logInfoExists], []) ∧
    (processLine existing true images_dir line o).1.head? =
      some (BatchAction.resolveCalled (interwiki_base_uri ⟨uriL⟩)) := by
  constructor
  · simp only [processLine, hmatch]
    rw [if_pos ⟨hex, by simp⟩]
  · simp only [processLine, hmatch]
    rw [if_neg (by simp)]
    cases hres : o.resolve with
    | raises => simp [hres]
    | returns r =>
      cases r with
      | none => simp [hres]
      | some fav =>
        by_cases hf : fav = ""
        · simp [hres, hf]
        · cases hfr : o.fetchRaises <;> simp [hres, hf, hfr]

/-- C7 (witness): a concrete existing entry is skipped when not forced and
resolved when forced. -/
theorem dokuwiki_skip_existing_witness :
    matchInterwikiLine (pyStrip ("wp https://wikipedia.org\n").data) =
      some ("wp".data, "https://wikipedia.org".data) ∧
    dokuwikiFilename "icons" ⟨"wp".data⟩ ∈ ["icons/wp.png"] ∧
    (processLine ["icons/wp.png"] false "icons" "wp https://wikipedia.org\n"
        ⟨ResolveOutcome.raises, false⟩ = ([BatchAction.logInfoExists], []) ∧
      (processLine ["icons/wp.png"] true "icons" "wp https://wikipedia.org\n"
          ⟨ResolveOutcome.raises, false⟩).1.head? =
        some (BatchAction.resolveCalled (interwiki_base_uri ⟨"https://wikipedia.org".data⟩))) :=
  ⟨by decide, by decide,
   dokuwiki_skip_existing ["icons/wp.png"] "icons" "wp https://wikipedia.org\n"
     ⟨ResolveOutcome.raises, false⟩ "wp".data "https://wikipedia.org".data
     (by decide) (by decide)⟩

/-- C8: in batch mode (i) every failing entry that is actually attempted —
a resolver exception, a resolver miss, or a raising fetch — leaves an error
log in its action trace; (ii) the run over a concatenation of config lines is
the run over the first part followed by the run over the rest from the
resulting file state, so no per-entry outcome aborts the processing of
subsequent entries; (iii) a config line that does not match the name-URI
pattern produces no action at all, in particular no log message. -/
theorem dokuwiki_batch_robust (force : Bool) (images_dir : String) :
    (∀ (existing : List String) (line : String) (o : LineOracle) (nameL uriL : List Char),
      matchInterwikiLine (pyStrip line.data) = some (nameL, uriL) →
      ¬ (dokuwikiFilename images_dir ⟨nameL⟩ ∈ existing ∧ ¬ force) →
      (o.resolve = ResolveOutcome.raises ∨ o.resolve = ResolveOutcome.returns none ∨
        o.resolve = ResolveOutcome.returns (some "") ∨ o.fetchRaises = true) →
      ∃ a ∈ (processLine existing force images_dir line o).1, a.isErrorLog = true) ∧
    (∀ (existing : List String) (ls1 ls2 : List (String × LineOracle)),
      (runBatch force images_dir existing (ls1 ++ ls2)).1 =
        (runBatch force images_dir existing ls1).1 ++
          (runBatch force images_dir (runBatch force images_dir existing ls1).2 ls2).1) ∧
    (∀ (existing : List String) (line : String) (o : LineOracle),
      matchInterwikiLine (pyStrip line.data) = none →
      processLine existing force images_dir line o = ([], [])) := by
  refine ⟨?_, ?_, ?_⟩
  · intro existing line o nameL uriL hmatch hskip hfail
    simp only [processLine, hmatch]
    rw [if_neg hskip]
    rcases hfail with h | h | h | h
    · rw [h]
      exact ⟨BatchAction.logErrorException, by simp, rfl⟩
    · rw [h]
      exact ⟨BatchAction.logErrorNoFavicon ⟨nameL⟩ (interwiki_base_uri ⟨uriL⟩), by simp, rfl⟩
    · rw [h]
      exact ⟨BatchAction.logErrorNoFavicon ⟨nameL⟩ (interwiki_base_uri ⟨uriL⟩), by simp, rfl⟩
    · cases hres : o.resolve with
      | raises => exact ⟨BatchAction.logErrorException, by simp [hres], rfl⟩
      | returns r =>
        cases r with
        | none =>
          exact ⟨BatchAction.logErrorNoFavicon ⟨nameL⟩ (interwiki_base_uri ⟨uriL⟩),
            by simp [hres], rfl⟩
        | some fav =>
          by_cases hf : fav = ""
          · exact ⟨BatchAction.logErrorNoFavicon ⟨nameL⟩ (interwiki_base_uri ⟨uriL⟩),
              by simp [hres, hf], rfl⟩
          · exact ⟨BatchAction.logErrorException, by simp [hres, hf, h], rfl⟩
  · intro existing ls1 ls2
    induction ls1 generalizing existing with
    | nil => simp [runBatch]
    | cons hd tl ih =>
      rcases hd with ⟨line, o⟩
      simp only [List.cons_append, runBatch, List.append_eq]
      rw [ih]
      simp [List.append_assoc]
  · intro existing line o hnone
    simp only [processLine, hnone]

/-- C8 (witness): a raising resolver leaves an error log, and a malformed
config line produces no action. -/
theorem dokuwiki_batch_robust_witness :
    (∃ a ∈ (processLine [] false "icons" "wp https://wikipedia.org"
        ⟨ResolveOutcome.raises, false⟩).1, a.isErrorLog = true) ∧
    processLine [] false "icons" "@@@" ⟨ResolveOutcome.raises, false⟩ = ([], []) :=
  ⟨(dokuwiki_batch_robust false "icons").1 [] "wp https://wikipedia.org"
      ⟨ResolveOutcome.raises, false⟩ "wp".data "https://wikipedia.org".data
      (by decide) (by decide) (Or.inl rfl),
   (dokuwiki_batch_robust false "icons").2.2 [] "@@@" ⟨ResolveOutcome.raises, false⟩
     (by decide)⟩

end Favicon
